import Mathlib

/-!
Verification of the two-venue hedging engine (`binance_bench/two_side`):
`cnx_trade.py` (derivatives-venue taker hedger), `nbtx_trade.py`
(spot-venue maker), and `pos_store.py` (local position cache).

Numbers are modelled as `ℚ` (the Python code uses floats/Decimals only for
finite decimal arithmetic and comparisons); the one exception is the standard
deviation returned by `window_stats`, which is a real square root and is
modelled in `ℝ`.  Venue I/O is modelled by passing the observed responses in
as explicit values: a call that can raise is given an `Option`/`Except`-shaped
response, mirroring exactly which Python expressions sit inside a
`try`/`except`.
-/

namespace TwoSide

/-- Python's `str.upper()` over the ASCII symbol strings this code handles:
character-wise uppercasing. -/
def str_upper (s : String) : String := ⟨s.data.map Char.toUpper⟩

/-- Python's `str.lower()` over the ASCII strings this code handles:
character-wise lowercasing. -/
def str_lower (s : String) : String := ⟨s.data.map Char.toLower⟩

/-- Order side, the `side` strings `"buy"`/`"sell"` of the Python code. -/
inductive Side
  | buy
  | sell
  deriving DecidableEq

/-- `"sell" if side == "buy" else "buy"` (cnx_trade.py line 167). -/
def Side.opposite : Side → Side
  | .buy => .sell
  | .sell => .buy

/-- One venue call that creates or destroys an order, recorded in the order
the Python code issues the call (an entry is recorded when the call is made,
whether or not the venue then raises). -/
inductive Action
  | placeLimit (side : Side) (amount : ℚ) (price : ℚ)
  | placeMarket (side : Side) (amount : ℚ)
  | cancelOrder (orderId : ℤ)
  deriving DecidableEq

/-! ## pos_store.py -/

/-- The per-symbol record `write_pos` stores: `{"q": qty, "side": side,
"time": ...}` (pos_store.py lines 42-46). -/
structure PosRec where
  q : ℚ
  side : String
  time : String
  deriving DecidableEq

/-- The position file as `read_pos`/`write_pos` see it: absent
(`FileNotFoundError`), unreadable (any other exception while opening or
parsing), or a readable JSON object mapping symbol keys to records. -/
inductive FileState
  | missing
  | unreadable
  | ok (data : List (String × PosRec))
  deriving DecidableEq

/-- `data.get(key)` on the JSON object: the value stored for `key`, newest
entry first. -/
def find_rec : List (String × PosRec) → String → Option PosRec
  | [], _ => none
  | (k, v) :: rest, key => if k = key then some v else find_rec rest key

/-- `data[key] = value` on the JSON object. -/
def set_key (data : List (String × PosRec)) (key : String) (v : PosRec) :
    List (String × PosRec) :=
  (key, v) :: data.filter (fun kv => kv.1 ≠ key)

/-- pos_store.py lines 7-19: `read_pos(path, symbol)` returns
`data.get(symbol.upper())`; a missing file or any read/parse failure is
caught and yields `None`. -/
def read_pos (fs : FileState) (symbol : String) : Option PosRec :=
  match fs with
  | .missing => none
  | .unreadable => none
  | .ok data => find_rec data (str_upper symbol)

/-- pos_store.py lines 27-31: the `side` string derived from the sign of
`qty`. -/
def side_of_qty (qty : ℚ) : String :=
  if 0 < qty then "buy" else if qty < 0 then "sell" else "flat"

/-- pos_store.py lines 21-51: `write_pos(path, symbol, qty)`.  The existing
file content is reused when readable, else `{}`; the record for the
upper-cased symbol is replaced; `now` is the `datetime.utcnow()` timestamp
taken during the call. -/
def write_pos (fs : FileState) (symbol : String) (qty : ℚ) (now : String) :
    FileState :=
  let data := match fs with
    | .ok d => d
    | .missing => []
    | .unreadable => []
  .ok (set_key data (str_upper symbol) ⟨qty, side_of_qty qty, now⟩)

/-- cnx_trade.py lines 251-253: the reconcile step of a cycle whose order was
not filled stores the unchanged previous position: `write_pos(pos_store, sym,
cur)`. -/
def reconcile_not_filled (fs : FileState) (symbol : String)
    (previous_position : ℚ) (now : String) : FileState :=
  write_pos fs symbol previous_position now

/-! ## cnx_trade.py: position resolution -/

/-- A Python value as it flows out of `get_coinex_pos`: the code's `-> float`
annotation notwithstanding, the fallback branch returns whatever `read_pos`
returns (a record dict, or `None`). -/
inductive PyVal
  | num (x : ℚ)
  | record (r : PosRec)
  | pynone
  deriving DecidableEq

/-- One entry of the `positions` list in the venue response. -/
structure ApiPos where
  market : String
  size : ℚ
  side : String
  deriving DecidableEq

/-- The outcome of the signed `/futures/position` request in
`get_coinex_pos`: the request raised, or the response had no non-empty
`positions` list, or it carried one. -/
inductive ApiOutcome
  | raised
  | noPositions
  | positions (ps : List ApiPos)

/-- cnx_trade.py lines 54-59: sum the signed sizes of the entries whose
market matches. -/
def api_pos_sum (ps : List ApiPos) (symbol : String) : ℚ :=
  ps.foldl
    (fun acc p =>
      if p.market = symbol then
        acc + (if str_lower p.side = "long" then p.size else -p.size)
      else acc)
    0

/-- cnx_trade.py lines 44-64: `get_coinex_pos(symbol, store_path)`.  A raised
venue request, a response without a non-empty `positions` list, or an empty
list all fall through to `read_pos`; the fallback returns `read_pos`'s value
unchanged (the record, or Python `None`). -/
def get_coinex_pos (api : ApiOutcome) (fs : FileState) (symbol : String) :
    PyVal :=
  let fallback : PyVal :=
    match read_pos fs symbol with
    | none => .pynone
    | some r => .record r
  match api with
  | .raised => fallback
  | .noPositions => fallback
  | .positions ps => if ps.isEmpty then fallback else .num (api_pos_sum ps symbol)

/-! ## cnx_trade.py: rounding and the taker fill-or-kill emulation -/

/-- cnx_trade.py lines 34-38: `round_qty(q, prec)`. -/
def round_qty (q : ℚ) (prec : ℤ) : ℚ :=
  if prec ≤ 0 then (⌊q⌋ : ℚ)
  else
    let f : ℚ := 10 ^ prec
    (⌊q * f⌋ : ℚ) / f

/-- cnx_trade.py lines 40-42: `round_price(p, prec)`. -/
def round_price (p : ℚ) (prec : ℤ) : ℚ :=
  let f : ℚ := 10 ^ prec
  (⌊p * f⌋ : ℚ) / f

/-- The `1e-12` epsilon of the fill comparison (cnx_trade.py line 161). -/
def fok_eps : ℚ := 1 / 10 ^ (12 : ℕ)

/-- What `check_order` reported: the parsed `amount_filled`/`matched_amount`
field (`0.0` when absent) and the `amount` field when present (absent or
falsy means `requested` falls back to the locally rounded quantity). -/
structure CheckReport where
  matched : ℚ
  amountField : Option ℚ
  deriving DecidableEq

/-- The venue responses one `fok_taker` call observes: the placement result
(`none` = `open_order` raised), the status query result (`none` =
`check_order` raised), and whether the `cancel_order` call returned rather
than raised.  The revert market order's own failure is caught by an inner
`except` that only logs, so it affects neither the actions attempted nor the
return value and needs no field here. -/
structure FokEnv where
  placeResult : Option ℤ
  checkResult : Option CheckReport
  cancelOk : Bool

/-- cnx_trade.py lines 131-176: `fok_taker(symbol, side, qty, price,
qty_prec, price_prec)`, returning the Python boolean result together with
the order-mutating venue calls made, in order. -/
def fok_taker (env : FokEnv) (side : Side) (qty price : ℚ)
    (qty_prec price_prec : ℤ) : Bool × List Action :=
  let q := max 0 (round_qty qty qty_prec)
  let p := round_price price price_prec
  if q ≤ 0 then (true, [])
  else
    match env.placeResult with
    | none => (false, [.placeLimit side q p])
    | some order_id =>
      match env.checkResult with
      | none => (false, [.placeLimit side q p])
      | some st =>
        let requested := st.amountField.getD q
        if st.matched ≥ requested - fok_eps then
          (true, [.placeLimit side q p])
        else
          if env.cancelOk then
            if 0 < st.matched then
              (false, [.placeLimit side q p, .cancelOrder order_id,
                       .placeMarket side.opposite st.matched])
            else
              (false, [.placeLimit side q p, .cancelOrder order_id])
          else
            (false, [.placeLimit side q p, .cancelOrder order_id])

/-! ## Rolling statistics (`window_stats`, both versions) -/

/-- The row `SELECT avg(diff), avg(diff*diff), count(*)` produces: two
nullable averages and a count. -/
def DbRow : Type := Option ℚ × Option ℚ × ℕ

/-- nbtx_trade.py lines 29-44: `window_stats(obs_db_path, window_min)` with
the query row passed in.  When the guard `n >= 2 and row[0] is not None and
row[1] is not None` holds it returns the unbiased standard deviation, else
`(0, 0, 0)`. -/
noncomputable def nbtx_window_stats (row : DbRow) : ℚ × ℝ × ℕ :=
  match row with
  | (some mean, some mean_sq, n) =>
    if 2 ≤ n then
      let var : ℚ := max 0 (mean_sq - mean * mean)
      let std : ℝ :=
        if 1 < n then Real.sqrt (((var * n / ((n : ℚ) - 1)) : ℚ) : ℝ) else 0
      (mean, std, n)
    else (0, 0, 0)
  | _ => (0, 0, 0)

/-- `statistics.fmean(vals)`. -/
def fmean (vals : List ℚ) : ℚ := vals.sum / vals.length

/-- The population variance under `statistics.pstdev`. -/
def pvariance (vals : List ℚ) : ℚ :=
  ((vals.map (fun x => (x - fmean vals) ^ 2)).sum) / vals.length

/-- The sample variance under `statistics.stdev`. -/
def svariance (vals : List ℚ) : ℚ :=
  ((vals.map (fun x => (x - fmean vals) ^ 2)).sum) / ((vals.length : ℚ) - 1)

/-- cnx_trade.py lines 110-120: the live-sample fallback of `window_stats`,
with `vals` the burst of `live_diff` observations obtained (the source draws
ten; an exception while sampling propagates and returns nothing, so only the
obtained list matters here): if at least two, `(fmean, pstdev-or-stdev,
len)`, else `(0, 0, 0)`. -/
noncomputable def burst_stats (vals : List ℚ) : ℚ × ℝ × ℕ :=
  if 2 ≤ vals.length then
    (fmean vals,
     if vals.length < 3 then Real.sqrt ((pvariance vals : ℚ) : ℝ)
     else Real.sqrt ((svariance vals : ℚ) : ℝ),
     vals.length)
  else (0, 0, 0)

/-- cnx_trade.py lines 91-120: `window_stats` of the hedger.  The whole DB
path sits in a `try`, so `db = none` stands for any exception there; a row
failing the `n >= 2`/non-`None` guard likewise falls through to the live
burst. -/
noncomputable def cnx_window_stats (db : Option DbRow) (vals : List ℚ) :
    ℚ × ℝ × ℕ :=
  match db with
  | some (some mean, some mean_sq, n) =>
    if 2 ≤ n then
      let var : ℚ := max 0 (mean_sq - mean * mean)
      let std : ℝ :=
        if 1 < n then Real.sqrt (((var * n / ((n : ℚ) - 1)) : ℚ) : ℝ) else 0
      (mean, std, n)
    else burst_stats vals
  | some (none, _, _) => burst_stats vals
  | some (some _, none, _) => burst_stats vals
  | none => burst_stats vals

/-! ## live_diff (both versions) -/

/-- A top-of-book snapshot: the bid and ask price ladders, best first (only
prices matter to `live_diff`). -/
structure Book where
  bids : List ℚ
  asks : List ℚ
  deriving DecidableEq

/-- `(ob["bids"][0] + ob["asks"][0]) / 2`: the mid price, or an error when
either side is empty (the Python `[0]` raises `IndexError`). -/
def book_mid (ob : Book) : Except Unit ℚ :=
  match ob.bids, ob.asks with
  | b :: _, a :: _ => .ok ((b + a) / 2)
  | _, _ => .error ()

/-- cnx_trade.py lines 25-32: `coinex_best(symbol)` returns `(best_bid,
best_ask)`, raising when either ladder is empty. -/
def coinex_best (ob : Book) : Except Unit (ℚ × ℚ) :=
  match ob.bids, ob.asks with
  | b :: _, a :: _ => .ok (b, a)
  | _, _ => .error ()

/-- cnx_trade.py lines 69-89: `live_diff(coin)` of the hedger.  All three
order books are used unguarded, so an empty side of any of them raises. -/
def cnx_live_diff (usdt_book coin_irt_book coin_fut_book : Book) :
    Except Unit (ℚ × ℚ × ℚ) :=
  match book_mid usdt_book with
  | .error e => .error e
  | .ok usdt_mid =>
    match book_mid coin_irt_book with
    | .error e => .error e
    | .ok coin_irt_mid =>
      match coinex_best coin_fut_book with
      | .error e => .error e
      | .ok (bb, ba) =>
        let coin_usdt_mid := (bb + ba) / 2
        let x := coin_usdt_mid * usdt_mid
        let y := coin_irt_mid
        .ok (x, y, x - y)

/-- nbtx_trade.py lines 46-66: `live_diff(coin)` of the maker.  The CoinEx
futures book access sits inside a `try` (`coin_fut_book = none` stands for
the request itself raising; an empty book raising `IndexError` is caught the
same way), and on any such failure the Binance reference book is used
unguarded instead. -/
def nbtx_live_diff (usdt_book coin_irt_book : Book)
    (coin_fut_book : Option Book) (binance_book : Book) :
    Except Unit (ℚ × ℚ × ℚ) :=
  match book_mid usdt_book with
  | .error e => .error e
  | .ok usdt_mid =>
    match book_mid coin_irt_book with
    | .error e => .error e
    | .ok coin_irt_mid =>
      let fut : Except Unit ℚ :=
        match coin_fut_book with
        | none => .error ()
        | some ob => book_mid ob
      match (match fut with
             | .ok v => Except.ok v
             | .error _ => book_mid binance_book) with
      | .error e => .error e
      | .ok coin_usdt_mid =>
        let x := coin_usdt_mid * usdt_mid
        .ok (x, coin_irt_mid, x - coin_irt_mid)

/-! ## nbtx_trade.py: maker-order tracking -/

/-- A JSON scalar as the `unmatchedAmount` field arrives (the code tests
`info.get("unmatchedAmount", 0) in (0, "0")`). -/
inductive JVal
  | num (x : ℚ)
  | str (s : String)
  deriving DecidableEq

/-- Everything one poll iteration of `track_and_cancel` observes: the
top-of-book of the tracked market, the `check_order` fields, the live
divergence `z` of that tick, and the elapsed time `time.time() - start` at
the tick's timeout test. -/
structure TickObs where
  best_bid : ℚ
  best_ask : ℚ
  status : String
  matchedAmount : ℚ
  unmatchedAmount : JVal
  priceField : Option ℚ
  z : ℚ
  elapsed : ℚ
  deriving DecidableEq

/-- The arguments of `track_and_cancel` that stay fixed across ticks. -/
structure TrackCfg where
  order_id : ℤ
  side : Side
  timeout : ℚ
  mean : ℚ
  std : ℚ
  k : ℚ
  deriving DecidableEq

/-- nbtx_trade.py line 94: `info.get("Price", best_ask if side=="buy" else
best_bid)`. -/
def order_price_of (cfg : TrackCfg) (t : TickObs) : ℚ :=
  t.priceField.getD (if cfg.side = Side.buy then t.best_ask else t.best_bid)

/-- nbtx_trade.py line 98: the fill test — lower-cased status terminal and
`unmatchedAmount` in `(0, "0")`. -/
def fill_cond (t : TickObs) : Bool :=
  decide (str_lower t.status ∈ ["finished", "filled", "done", "complete"]) &&
  decide (t.unmatchedAmount = JVal.num 0 ∨ t.unmatchedAmount = JVal.str "0")

/-- nbtx_trade.py lines 103-108: the best-price test — a buy order priced
below the best bid, or a sell order priced above the best ask. -/
def not_best_cond (cfg : TrackCfg) (t : TickObs) : Bool :=
  match cfg.side with
  | .buy => decide (order_price_of cfg t < t.best_bid)
  | .sell => decide (t.best_ask < order_price_of cfg t)

/-- nbtx_trade.py line 112: the signal-decay test — `z` strictly inside
`(mean - k*std, mean + k*std)`. -/
def no_signal_cond (cfg : TrackCfg) (t : TickObs) : Bool :=
  decide (cfg.mean - cfg.k * cfg.std < t.z ∧ t.z < cfg.mean + cfg.k * cfg.std)

/-- nbtx_trade.py line 116: the timeout test — elapsed time strictly above
`timeout`. -/
def timeout_cond (cfg : TrackCfg) (t : TickObs) : Bool :=
  decide (cfg.timeout < t.elapsed)

/-- The four terminal outcomes of the tracker. -/
inductive Outcome
  | FILLED
  | NOT_BEST
  | NO_SIGNAL
  | TIMEOUT
  deriving DecidableEq

/-- What a terminal transition returns — the outcome string, `matched`, and
`matched * order_price` — together with the venue calls the deciding
iteration made. -/
structure TickResult where
  outcome : Outcome
  matched : ℚ
  notional : ℚ
  actions : List Action
  deriving DecidableEq

/-- One iteration of the `while True` loop of `track_and_cancel`
(nbtx_trade.py lines 84-120): the four checks in source order, each ending
the loop with a return; `none` means the iteration fell through to
`time.sleep(poll)` and the loop continues. -/
def track_step (cfg : TrackCfg) (t : TickObs) : Option TickResult :=
  let matched := t.matchedAmount
  let order_price := order_price_of cfg t
  if fill_cond t then
    some ⟨.FILLED, matched, matched * order_price, []⟩
  else if not_best_cond cfg t then
    some ⟨.NOT_BEST, matched, matched * order_price, [.cancelOrder cfg.order_id]⟩
  else if no_signal_cond cfg t then
    some ⟨.NO_SIGNAL, matched, matched * order_price, [.cancelOrder cfg.order_id]⟩
  else if timeout_cond cfg t then
    some ⟨.TIMEOUT, matched, matched * order_price, [.cancelOrder cfg.order_id]⟩
  else none

/-- nbtx_trade.py lines 74-120: `track_and_cancel` over the finite trace of
per-tick observations; `none` means no terminating condition was observed on
the trace (the source loop would still be polling). -/
def track_and_cancel (cfg : TrackCfg) : List TickObs → Option TickResult
  | [] => none
  | t :: ts =>
    match track_step cfg t with
    | some r => some r
    | none => track_and_cancel cfg ts

/-! ## nbtx_trade.py: spot-side permission guards and the inventory band -/

/-- nbtx_trade.py line 196: the buy branch is skipped when
`b_units + order_qty > u_units`. -/
def buy_guard_skips (b_units order_qty u_units : ℚ) : Bool :=
  decide (u_units < b_units + order_qty)

/-- nbtx_trade.py line 214: the sell branch is skipped when
`b_units - order_qty < l_units`. -/
def sell_guard_skips (b_units order_qty l_units : ℚ) : Bool :=
  decide (b_units - order_qty < l_units)

/-- Python 3's `<` between the values that can meet in the band comparison:
defined between two numbers; a comparison involving `None` or a dict raises
`TypeError`. -/
def py_lt (a b : PyVal) : Except Unit Bool :=
  match a, b with
  | .num x, .num y => .ok (decide (x < y))
  | _, _ => .error ()

/-- nbtx_trade.py lines 154-158: `within_tobit_window(b_units)` as the
source executes it: `center = 0.5*(l_units + u_units) - b_units`, `pos` is
bound to `read_pos(pos_store, symbol)` — a stored `{q, side, time}` record
or Python `None`, never a number — and the chained comparison
`center - t_units < pos < center + t_units` evaluates its left comparison
first, short-circuiting only on a `False` result. -/
def within_tobit_window (l_units u_units t_units b_units : ℚ)
    (fs : FileState) (symbol : String) : Except Unit Bool :=
  let m := (1 / 2 : ℚ) * (l_units + u_units)
  let center := m - b_units
  let pos : PyVal :=
    match read_pos fs symbol with
    | none => .pynone
    | some r => .record r
  match py_lt (.num (center - t_units)) pos with
  | .error e => .error e
  | .ok false => .ok false
  | .ok true => py_lt pos (.num (center + t_units))

/-! ## Theorems -/

/-- C7: the inventory-band guard of nbtx_trade.py lines 154-158 never
returns a boolean: `pos` is `read_pos`'s return — a `{q, side, time}` record
or Python `None`, never a number — so the chained band comparison raises
`TypeError` on every call, whatever the bounds, file state and symbol; in
particular at the claim's own instance (`center = 5`, `tolerance = 2`, with
position `5` stored for the symbol) the call errors instead of returning
`True`. -/
theorem within_tobit_window_c7_bug :
    (∀ l u tol b fs symbol,
      within_tobit_window l u tol b fs symbol = Except.error ()) ∧
    within_tobit_window 0 10 2 0
      (.ok [("ETHUSDT", ⟨5, "buy", "t1"⟩)]) "ETHUSDT" = Except.error () ∧
    within_tobit_window 0 10 2 0 .missing "ETHUSDT" = Except.error () := by
  have h : ∀ l u tol b fs symbol,
      within_tobit_window l u tol b fs symbol = Except.error () := by
    intro l u tol b fs symbol
    rcases hr : read_pos fs symbol with _ | r <;>
      simp [within_tobit_window, py_lt, hr]
  exact ⟨h, h 0 10 2 0 _ _, h 0 10 2 0 _ _⟩

/-- C5: the spot-side permission guards of nbtx_trade.py main: a buy of
`order_qty` is attempted (not skipped) iff `b_units + order_qty ≤ u_units`, a
sell iff `b_units - order_qty ≥ l_units`, and under those guards a holding
inside `[l_units, u_units]` stays inside after the permitted trade. -/
theorem spot_guard_bounds_c5 (b q l u : ℚ) :
    (buy_guard_skips b q u = false ↔ b + q ≤ u) ∧
    (sell_guard_skips b q l = false ↔ l ≤ b - q) ∧
    (0 ≤ q → l ≤ b → b ≤ u →
      (buy_guard_skips b q u = false → l ≤ b + q ∧ b + q ≤ u) ∧
      (sell_guard_skips b q l = false → l ≤ b - q ∧ b - q ≤ u)) := by
  have hb : buy_guard_skips b q u = false ↔ b + q ≤ u := by
    simp [buy_guard_skips]
  have hs : sell_guard_skips b q l = false ↔ l ≤ b - q := by
    simp [sell_guard_skips]
  refine ⟨hb, hs, fun hq hl hu => ⟨fun h => ⟨?_, hb.mp h⟩, fun h => ⟨hs.mp h, ?_⟩⟩⟩
  · linarith
  · linarith

/-- C9: the reconcile step of a cycle whose order did not fill writes the
unchanged previous position; performing it twice with the same symbol and the
same previous position stores the same position value both times. -/
theorem reconcile_not_filled_idempotent_c9 (fs : FileState) (symbol : String)
    (prev : ℚ) (t1 t2 : String) :
    (read_pos (reconcile_not_filled fs symbol prev t1) symbol).map PosRec.q =
      some prev ∧
    (read_pos (reconcile_not_filled (reconcile_not_filled fs symbol prev t1)
        symbol prev t2) symbol).map PosRec.q = some prev := by
  cases fs <;>
    simp [reconcile_not_filled, write_pos, read_pos, set_key, find_rec]

/-- C10: `read_pos` is total: a missing or unreadable position file and a
file without an entry for the upper-cased symbol all yield `none`, and a
present entry is returned as the full stored record (the `{q, side, time}`
mapping `write_pos` wrote), not as a bare numeric quantity. -/
theorem read_pos_c10 (symbol : String) (data : List (String × PosRec))
    (qty : ℚ) (now : String) :
    read_pos .missing symbol = none ∧
    read_pos .unreadable symbol = none ∧
    read_pos (.ok data) symbol = find_rec data (str_upper symbol) ∧
    read_pos (write_pos (.ok data) symbol qty now) symbol =
      some ⟨qty, side_of_qty qty, now⟩ := by
  refine ⟨rfl, rfl, rfl, ?_⟩
  simp [write_pos, read_pos, set_key, find_rec]

/-- C2: evaluated where the live venue query fails and no persisted value
exists, `get_coinex_pos` returns Python `None` — not the claimed `0` — and
where a persisted entry exists it returns the whole record dict rather than
the numeric position, contradicting its own `-> float` annotation and its
caller's arithmetic. -/
theorem get_coinex_pos_c2_bug :
    get_coinex_pos .raised .missing "BTCUSDT" = .pynone ∧
    get_coinex_pos .raised .missing "BTCUSDT" ≠ .num 0 ∧
    get_coinex_pos .raised (.ok [("BTCUSDT", ⟨3, "buy", "t1"⟩)]) "BTCUSDT" =
      .record ⟨3, "buy", "t1"⟩ := by
  refine ⟨rfl, by decide, ?_⟩
  simp [get_coinex_pos, read_pos, find_rec, str_upper]

theorem nbtx_window_stats_std_nonneg (row : DbRow) :
    0 ≤ (nbtx_window_stats row).2.1 := by
  obtain ⟨o1, o2, n⟩ := row
  rcases o1 with _ | mean <;> rcases o2 with _ | msq <;>
      simp only [nbtx_window_stats]
  · norm_num
  · norm_num
  · norm_num
  · split
    · dsimp only
      split
      · exact Real.sqrt_nonneg _
      · norm_num
    · norm_num

theorem nbtx_window_stats_low (row : DbRow)
    (h : (nbtx_window_stats row).2.2 < 2) : nbtx_window_stats row = (0, 0, 0) := by
  obtain ⟨o1, o2, n⟩ := row
  rcases o1 with _ | mean <;> rcases o2 with _ | msq <;>
      simp only [nbtx_window_stats] at h ⊢
  by_cases h2 : 2 ≤ n
  · rw [if_pos h2] at h
    dsimp only at h
    omega
  · rw [if_neg h2]

theorem burst_stats_std_nonneg (vals : List ℚ) : 0 ≤ (burst_stats vals).2.1 := by
  unfold burst_stats
  split
  · dsimp only
    split
    · exact Real.sqrt_nonneg _
    · exact Real.sqrt_nonneg _
  · norm_num

theorem burst_stats_low (vals : List ℚ)
    (h : (burst_stats vals).2.2 < 2) : burst_stats vals = (0, 0, 0) := by
  unfold burst_stats at h ⊢
  by_cases h2 : 2 ≤ vals.length
  · rw [if_pos h2] at h
    dsimp only at h
    omega
  · rw [if_neg h2]

theorem cnx_window_stats_std_nonneg (db : Option DbRow) (vals : List ℚ) :
    0 ≤ (cnx_window_stats db vals).2.1 := by
  rcases db with _ | ⟨o1, o2, n⟩
  · exact burst_stats_std_nonneg vals
  · rcases o1 with _ | mean <;> rcases o2 with _ | msq <;>
        simp only [cnx_window_stats]
    · exact burst_stats_std_nonneg vals
    · exact burst_stats_std_nonneg vals
    · exact burst_stats_std_nonneg vals
    · split
      · dsimp only
        split
        · exact Real.sqrt_nonneg _
        · norm_num
      · exact burst_stats_std_nonneg vals

theorem cnx_window_stats_low (db : Option DbRow) (vals : List ℚ)
    (h : (cnx_window_stats db vals).2.2 < 2) :
    cnx_window_stats db vals = (0, 0, 0) := by
  rcases db with _ | ⟨o1, o2, n⟩
  · exact burst_stats_low vals h
  · rcases o1 with _ | mean <;> rcases o2 with _ | msq <;>
        simp only [cnx_window_stats] at h ⊢
    · exact burst_stats_low vals h
    · exact burst_stats_low vals h
    · exact burst_stats_low vals h
    · by_cases h2 : 2 ≤ n
      · rw [if_pos h2] at h
        dsimp only at h
        omega
      · rw [if_neg h2] at h ⊢
        exact burst_stats_low vals h

/-- C6: every `(mean, std, n)` either version of `window_stats` returns has
`std ≥ 0` when `n ≥ 2`, and is the whole triple `(0, 0, 0)` (so in
particular `std = 0`) when `n < 2`. -/
theorem window_stats_c6 (row : DbRow) (db : Option DbRow) (vals : List ℚ) :
    (2 ≤ (nbtx_window_stats row).2.2 → 0 ≤ (nbtx_window_stats row).2.1) ∧
    ((nbtx_window_stats row).2.2 < 2 → nbtx_window_stats row = (0, 0, 0)) ∧
    (2 ≤ (cnx_window_stats db vals).2.2 → 0 ≤ (cnx_window_stats db vals).2.1) ∧
    ((cnx_window_stats db vals).2.2 < 2 → cnx_window_stats db vals = (0, 0, 0)) :=
  ⟨fun _ => nbtx_window_stats_std_nonneg row, nbtx_window_stats_low row,
   fun _ => cnx_window_stats_std_nonneg db vals, cnx_window_stats_low db vals⟩

/-- C6 witness: a concrete query row with four samples satisfies the `n ≥ 2`
premise and yields a nonnegative standard deviation. -/
theorem window_stats_c6_witness :
    2 ≤ (nbtx_window_stats (some 3, some 9, 4)).2.2 ∧
    0 ≤ (nbtx_window_stats (some 3, some 9, 4)).2.1 := by
  have hn : 2 ≤ (nbtx_window_stats (some 3, some 9, 4)).2.2 := by
    norm_num [nbtx_window_stats]
  exact ⟨hn, (window_stats_c6 (some 3, some 9, 4) none []).1 hn⟩

theorem book_mid_error_iff (b : Book) :
    book_mid b = Except.error () ↔ b.bids = [] ∨ b.asks = [] := by
  obtain ⟨bb, ba⟩ := b
  cases bb <;> cases ba <;> simp [book_mid]

theorem coinex_best_error_iff (b : Book) :
    coinex_best b = Except.error () ↔ b.bids = [] ∨ b.asks = [] := by
  obtain ⟨bb, ba⟩ := b
  cases bb <;> cases ba <;> simp [coinex_best]

theorem cnx_live_diff_error_iff (u ci f : Book) :
    cnx_live_diff u ci f = Except.error () ↔
      u.bids = [] ∨ u.asks = [] ∨ ci.bids = [] ∨ ci.asks = [] ∨
        f.bids = [] ∨ f.asks = [] := by
  obtain ⟨ub, ua⟩ := u
  obtain ⟨cb, ca⟩ := ci
  obtain ⟨fb, fa⟩ := f
  cases ub <;> cases ua <;> cases cb <;> cases ca <;> cases fb <;> cases fa <;>
    simp [cnx_live_diff, book_mid, coinex_best]

theorem nbtx_live_diff_error_iff (u ci : Book) (fOpt : Option Book) (bin : Book) :
    nbtx_live_diff u ci fOpt bin = Except.error () ↔
      u.bids = [] ∨ u.asks = [] ∨ ci.bids = [] ∨ ci.asks = [] ∨
        ((fOpt = none ∨ ∃ ob, fOpt = some ob ∧ (ob.bids = [] ∨ ob.asks = [])) ∧
          (bin.bids = [] ∨ bin.asks = [])) := by
  obtain ⟨ub, ua⟩ := u
  obtain ⟨cb, ca⟩ := ci
  obtain ⟨bb, ba⟩ := bin
  rcases fOpt with _ | ⟨fb, fa⟩
  · cases ub <;> cases ua <;> cases cb <;> cases ca <;> cases bb <;> cases ba <;>
      simp [nbtx_live_diff, book_mid]
  · cases ub <;> cases ua <;> cases cb <;> cases ca <;> cases bb <;> cases ba <;>
      cases fb <;> cases fa <;> simp [nbtx_live_diff, book_mid]

/-- C8 counterexample: for the maker's `live_diff`, an empty coin/USDT
futures order book does not fail the call — the Binance reference book is
used instead and the call succeeds — refuting "if any of these order books
is empty, the call fails". -/
theorem live_diff_c8_counterexample :
    nbtx_live_diff ⟨[2], [4]⟩ ⟨[10], [14]⟩ (some ⟨[], []⟩) ⟨[6], [8]⟩ =
      Except.ok (21, 12, 9) ∧
    nbtx_live_diff ⟨[2], [4]⟩ ⟨[10], [14]⟩ (some ⟨[], []⟩) ⟨[6], [8]⟩ ≠
      Except.error () := by
  constructor
  · show Except.ok ((6 + 8) / 2 * ((2 + 4) / 2), (10 + 14) / 2,
      (6 + 8) / 2 * ((2 + 4) / 2) - (10 + 14) / 2) = Except.ok (21, 12, 9)
    norm_num
  · intro hc
    rw [show nbtx_live_diff ⟨[2], [4]⟩ ⟨[10], [14]⟩ (some ⟨[], []⟩) ⟨[6], [8]⟩ =
        Except.ok ((6 + 8) / 2 * ((2 + 4) / 2), (10 + 14) / 2,
          (6 + 8) / 2 * ((2 + 4) / 2) - (10 + 14) / 2) from rfl] at hc
    exact Except.noConfusion hc

/-- C8 (amended): the hedger's `live_diff` fails exactly when any side of
any of its three order books is empty; the maker's `live_diff` fails exactly
when a Nobitex book is empty, or the coinex futures book is unavailable or
empty on a side and the Binance fallback book is also empty on a side. -/
theorem live_diff_c8_amended (u ci f bin : Book) (fOpt : Option Book) :
    (cnx_live_diff u ci f = Except.error () ↔
      u.bids = [] ∨ u.asks = [] ∨ ci.bids = [] ∨ ci.asks = [] ∨
        f.bids = [] ∨ f.asks = []) ∧
    (nbtx_live_diff u ci fOpt bin = Except.error () ↔
      u.bids = [] ∨ u.asks = [] ∨ ci.bids = [] ∨ ci.asks = [] ∨
        ((fOpt = none ∨ ∃ ob, fOpt = some ob ∧ (ob.bids = [] ∨ ob.asks = [])) ∧
          (bin.bids = [] ∨ bin.asks = []))) :=
  ⟨cnx_live_diff_error_iff u ci f, nbtx_live_diff_error_iff u ci fOpt bin⟩

/-- C1: a `fok_taker` call with positive rounded quantity whose placement
succeeds and whose status query and cancel call the venue answers: when the
reported matched quantity reaches the requested quantity up to the `1e-12`
epsilon the call returns `true` having placed only the one limit order;
otherwise it cancels the order, additionally places exactly one market order
on the opposite side for exactly the matched quantity when that is strictly
positive (and no market order otherwise), and returns `false`. -/
theorem fok_taker_c1 (env : FokEnv) (side : Side) (qty price : ℚ)
    (qty_prec price_prec : ℤ) (order_id : ℤ) (st : CheckReport)
    (hq : 0 < max 0 (round_qty qty qty_prec))
    (hplace : env.placeResult = some order_id)
    (hcheck : env.checkResult = some st)
    (hcancel : env.cancelOk = true) :
    (st.matched ≥ st.amountField.getD (max 0 (round_qty qty qty_prec)) - fok_eps →
      fok_taker env side qty price qty_prec price_prec =
        (true, [.placeLimit side (max 0 (round_qty qty qty_prec))
                  (round_price price price_prec)])) ∧
    (st.matched < st.amountField.getD (max 0 (round_qty qty qty_prec)) - fok_eps →
      (0 < st.matched →
        fok_taker env side qty price qty_prec price_prec =
          (false, [.placeLimit side (max 0 (round_qty qty qty_prec))
                     (round_price price price_prec),
                   .cancelOrder order_id,
                   .placeMarket side.opposite st.matched])) ∧
      (st.matched ≤ 0 →
        fok_taker env side qty price qty_prec price_prec =
          (false, [.placeLimit side (max 0 (round_qty qty qty_prec))
                     (round_price price price_prec),
                   .cancelOrder order_id]))) := by
  simp only [fok_taker, hplace, hcheck, hcancel]
  rw [if_neg (not_le.mpr hq)]
  constructor
  · intro hfill
    rw [if_pos hfill]
  · intro hless
    rw [if_neg (not_le.mpr hless)]
    simp only [if_true]
    constructor
    · intro hm
      rw [if_pos hm]
    · intro hm
      rw [if_neg (not_lt.mpr hm)]

/-- C1 witness: placement succeeds with order id `7`, the venue reports
`matched = 4` of `requested = 10`: the call cancels, reverts the `4` with one
opposite-side market order, and returns `false`. -/
theorem fok_taker_c1_witness :
    fok_taker ⟨some 7, some ⟨4, some 10⟩, true⟩ Side.buy 10 100 2 2 =
      (false, [Action.placeLimit Side.buy 10 100, Action.cancelOrder 7,
               Action.placeMarket Side.sell 4]) := by
  have hq : (0 : ℚ) < max 0 (round_qty 10 2) := by
    norm_num [round_qty]
  have h := ((fok_taker_c1 ⟨some 7, some ⟨4, some 10⟩, true⟩ Side.buy 10 100 2 2 7
      ⟨4, some 10⟩ hq rfl rfl rfl).2 (by norm_num [fok_eps])).1 (by norm_num)
  rw [h]
  norm_num [round_qty, round_price, Side.opposite]

/-- C3: on each poll iteration of `track_and_cancel` the four terminating
checks run in the fixed order fill, best-price, signal-decay, timeout, so
the first one that holds decides the outcome even when later ones also hold;
an iteration on which none holds just continues with the next tick, and once
an iteration returns a terminal result the remaining trace is irrelevant (no
further transition). -/
theorem track_and_cancel_c3 (cfg : TrackCfg) (t : TickObs) (ts : List TickObs) :
    (fill_cond t = true →
      track_and_cancel cfg (t :: ts) =
        some ⟨.FILLED, t.matchedAmount,
              t.matchedAmount * order_price_of cfg t, []⟩) ∧
    (fill_cond t = false → not_best_cond cfg t = true →
      track_and_cancel cfg (t :: ts) =
        some ⟨.NOT_BEST, t.matchedAmount,
              t.matchedAmount * order_price_of cfg t,
              [.cancelOrder cfg.order_id]⟩) ∧
    (fill_cond t = false → not_best_cond cfg t = false →
        no_signal_cond cfg t = true →
      track_and_cancel cfg (t :: ts) =
        some ⟨.NO_SIGNAL, t.matchedAmount,
              t.matchedAmount * order_price_of cfg t,
              [.cancelOrder cfg.order_id]⟩) ∧
    (fill_cond t = false → not_best_cond cfg t = false →
        no_signal_cond cfg t = false → timeout_cond cfg t = true →
      track_and_cancel cfg (t :: ts) =
        some ⟨.TIMEOUT, t.matchedAmount,
              t.matchedAmount * order_price_of cfg t,
              [.cancelOrder cfg.order_id]⟩) ∧
    (fill_cond t = false → not_best_cond cfg t = false →
        no_signal_cond cfg t = false → timeout_cond cfg t = false →
      track_and_cancel cfg (t :: ts) = track_and_cancel cfg ts) ∧
    (∀ r, track_step cfg t = some r →
      track_and_cancel cfg (t :: ts) = some r) := by
  refine ⟨?_, ?_, ?_, ?_, ?_, ?_⟩
  · intro h1
    simp [track_and_cancel, track_step, h1]
  · intro h1 h2
    simp [track_and_cancel, track_step, h1, h2]
  · intro h1 h2 h3
    simp [track_and_cancel, track_step, h1, h2, h3]
  · intro h1 h2 h3 h4
    simp [track_and_cancel, track_step, h1, h2, h3, h4]
  · intro h1 h2 h3 h4
    simp [track_and_cancel, track_step, h1, h2, h3, h4]
  · intro r hr
    simp [track_and_cancel, hr]

/-- C3 witness: a tick on which all four terminating conditions hold at once
(terminal status with zero unmatched, price off the top of book, signal back
inside the band, timeout elapsed) resolves to `FILLED`, the highest-priority
outcome. -/
theorem track_and_cancel_c3_witness :
    track_and_cancel ⟨9, Side.buy, 45, 0, 1, 2⟩
      [⟨5, 6, "Finished", 2, JVal.num 0, some 4, 0, 100⟩] =
      some ⟨Outcome.FILLED, 2, 8, []⟩ := by
  have hfill : fill_cond ⟨5, 6, "Finished", 2, JVal.num 0, some 4, 0, 100⟩ = true := by
    decide
  have h := (track_and_cancel_c3 ⟨9, Side.buy, 45, 0, 1, 2⟩
      ⟨5, 6, "Finished", 2, JVal.num 0, some 4, 0, 100⟩ []).1 hfill
  rw [h]
  norm_num [order_price_of]

theorem track_step_spec (cfg : TrackCfg) (t : TickObs) (r : TickResult)
    (h : track_step cfg t = some r) :
    r.matched = t.matchedAmount ∧
    r.notional = t.matchedAmount * order_price_of cfg t ∧
    (r.outcome = .FILLED → r.actions = []) ∧
    (r.outcome ≠ .FILLED → r.actions = [.cancelOrder cfg.order_id]) := by
  unfold track_step at h
  dsimp only at h
  split at h
  · cases Option.some.inj h
    exact ⟨rfl, rfl, fun _ => rfl, fun hc => absurd rfl hc⟩
  · split at h
    · cases Option.some.inj h
      exact ⟨rfl, rfl, fun hc => Outcome.noConfusion hc, fun _ => rfl⟩
    · split at h
      · cases Option.some.inj h
        exact ⟨rfl, rfl, fun hc => Outcome.noConfusion hc, fun _ => rfl⟩
      · split at h
        · cases Option.some.inj h
          exact ⟨rfl, rfl, fun hc => Outcome.noConfusion hc, fun _ => rfl⟩
        · exact Option.noConfusion h

/-- C4: `track_and_cancel` only ever cancels the tracked order — every venue
call it makes is that cancel, none on a `FILLED` outcome and exactly one
otherwise — and each terminal result reports the deciding tick's
venue-reported matched quantity unchanged (no compensating order is placed),
with the notional equal to that matched quantity times the order price. -/
theorem track_and_cancel_c4 (cfg : TrackCfg) (ticks : List TickObs)
    (r : TickResult) (h : track_and_cancel cfg ticks = some r) :
    (∀ a ∈ r.actions, a = Action.cancelOrder cfg.order_id) ∧
    (r.outcome = .FILLED → r.actions = []) ∧
    (r.outcome ≠ .FILLED → r.actions = [.cancelOrder cfg.order_id]) ∧
    ∃ t ∈ ticks, track_step cfg t = some r ∧
      r.matched = t.matchedAmount ∧
      r.notional = t.matchedAmount * order_price_of cfg t := by
  induction ticks with
  | nil => exact Option.noConfusion h
  | cons t ts ih =>
    rw [track_and_cancel] at h
    rcases hs : track_step cfg t with _ | r2 <;> rw [hs] at h
    · obtain ⟨hall, hfill, hnfill, t2, ht2, hrest⟩ := ih h
      exact ⟨hall, hfill, hnfill, t2, List.mem_cons_of_mem t ht2, hrest⟩
    · cases Option.some.inj h
      obtain ⟨hm, hn, hfill, hnfill⟩ := track_step_spec cfg t r hs
      refine ⟨?_, hfill, hnfill, t, List.mem_cons_self t ts, hs, hm, hn⟩
      intro a ha
      by_cases ho : r.outcome = Outcome.FILLED
      · rw [hfill ho] at ha
        exact absurd ha (List.not_mem_nil a)
      · rw [hnfill ho] at ha
        simpa using ha

/-- C4 witness: a tracked sell order whose single observed tick only times
out ends as `TIMEOUT` with exactly the one cancel as its venue calls. -/
theorem track_and_cancel_c4_witness :
    track_and_cancel ⟨9, Side.sell, 45, 0, 1, 2⟩
      [⟨5, 6, "open", 1, JVal.num 1, some 6, 100, 50⟩] =
      some ⟨Outcome.TIMEOUT, 1, 6, [Action.cancelOrder 9]⟩ ∧
    (⟨Outcome.TIMEOUT, 1, 6, [Action.cancelOrder 9]⟩ : TickResult).actions =
      [Action.cancelOrder 9] := by
  have h : track_and_cancel ⟨9, Side.sell, 45, 0, 1, 2⟩
      [⟨5, 6, "open", 1, JVal.num 1, some 6, 100, 50⟩] =
      some ⟨Outcome.TIMEOUT, 1, 6, [Action.cancelOrder 9]⟩ := by
    have hf : fill_cond ⟨5, 6, "open", 1, JVal.num 1, some 6, 100, 50⟩ = false := by
      decide
    have hnb : not_best_cond ⟨9, Side.sell, 45, 0, 1, 2⟩
        ⟨5, 6, "open", 1, JVal.num 1, some 6, 100, 50⟩ = false := by
      decide
    have hns : no_signal_cond ⟨9, Side.sell, 45, 0, 1, 2⟩
        ⟨5, 6, "open", 1, JVal.num 1, some 6, 100, 50⟩ = false := by
      norm_num [no_signal_cond]
    have hto : timeout_cond ⟨9, Side.sell, 45, 0, 1, 2⟩
        ⟨5, 6, "open", 1, JVal.num 1, some 6, 100, 50⟩ = true := by
      decide
    simp only [track_and_cancel, track_step, hf, hnb, hns, hto]
    norm_num [order_price_of]
  exact ⟨h, (track_and_cancel_c4 ⟨9, Side.sell, 45, 0, 1, 2⟩
      [⟨5, 6, "open", 1, JVal.num 1, some 6, 100, 50⟩]
      ⟨Outcome.TIMEOUT, 1, 6, [Action.cancelOrder 9]⟩ h).2.2.1 (by decide)⟩

end TwoSide
